import Mathlib

/-!
Verification of the chunking and retrieval pipeline of a PDF
question-answering system (`document_processor.py`,
`embedding_service.py`, `vector_store.py`, `rag_system.py`,
`config.py`).

Modelling conventions:
* Python strings are lists of unicode codepoints (`Str`); Python's
  `len` on a string is `List.length`.
* The subword tokenizer (`tiktoken`, used only through
  `len(self.tokenizer.encode(text))`) is an abstract token-counting
  function `tok : Str → ℕ` passed as a parameter.
* The remote collaborators (Bedrock embedding model, Bedrock chat
  model, OpenSearch) are oracles passed as parameters; a call that may
  raise is an `Except`-valued oracle.
* Python `try/except` blocks are modelled by matching on those
  `Except` values exactly where the source catches.
-/

namespace DemoCar

/-- Python strings, as lists of unicode codepoints. -/
abbrev Str := List Char

/-- The characters Python treats as whitespace in `str.strip()`,
`str.split()` and in the regex class `\s` (ASCII fragment; the exotic
unicode spaces play no role in this pipeline). -/
def isPySpace (c : Char) : Bool :=
  c = ' ' || c = '\t' || c = '\n' || c = '\r' || c = '\x0B' || c = '\x0C'

/-- Python `str.strip()`: remove leading and trailing whitespace. -/
def pyStrip (s : Str) : Str :=
  ((s.dropWhile isPySpace).reverse.dropWhile isPySpace).reverse

/-- Python `str.lower()`.  `Char.toLower` agrees with Python on ASCII
and is the identity on the caseless Korean keywords the classifier
tests for. -/
def pyLower (s : Str) : Str := s.map Char.toLower

/-- config.py: `CHUNK_SIZE = 1000`. -/
def CHUNK_SIZE : ℕ := 1000

/-- config.py: `CHUNK_OVERLAP = 200`. -/
def CHUNK_OVERLAP : ℕ := 200

/-- config.py: `MAX_TOKENS_PER_CHUNK = 512`. -/
def MAX_TOKENS_PER_CHUNK : ℕ := 512

/-- Python `needle in haystack` on strings: contiguous substring. -/
def pyIn (needle hay : Str) : Bool := decide (needle <:+: hay)

/-- document_processor.py, `identify_section_type` (lines 110-123):
lower-case the text and test the four keyword families in a fixed
priority order. -/
def identify_section_type (text : Str) : String :=
  let text_lower := pyLower text
  if ["주의".toList, "경고".toList, "위험".toList, "조심".toList].any
      (fun k => pyIn k text_lower) then "warning"
  else if ["사용법".toList, "조작".toList, "작동".toList, "방법".toList].any
      (fun k => pyIn k text_lower) then "instruction"
  else if ["사양".toList, "규격".toList, "제원".toList].any
      (fun k => pyIn k text_lower) then "specification"
  else if ["문제해결".toList, "고장".toList, "점검".toList, "진단".toList].any
      (fun k => pyIn k text_lower) then "troubleshooting"
  else "general"

/-- The heading regex `^(#{1,6})\s+(.+)$` of `_split_by_sections`,
applied with `re.match` to one line (lines produced by
`content.split('\n')` contain no newline).  A line matches exactly
when it starts with 1 to 6 `#` characters followed by a whitespace
character and at least one further character. -/
def isHeadingLine (l : Str) : Bool :=
  let hashes := l.takeWhile (fun c => c = '#')
  let rest := l.dropWhile (fun c => c = '#')
  decide (1 ≤ hashes.length) && decide (hashes.length ≤ 6) &&
    (match rest with
     | c :: _ :: _ => isPySpace c
     | _ => false)

/-- The accumulator loop of `_split_by_sections` (document_processor.py
lines 207-218): `cur` is `current_section` (the lines of the section
being built), flushed when a heading line arrives and `cur` is
non-empty (Python list truthiness), and once more at the end. -/
def sbsLoop : List Str → List Str → List (List Str)
  | [], cur => if cur.isEmpty then [] else [cur]
  | l :: rest, cur =>
    if isHeadingLine l then
      (if cur.isEmpty then [] else [cur]) ++ sbsLoop rest [l]
    else
      sbsLoop rest (cur ++ [l])

/-- document_processor.py, `_split_by_sections` (lines 198-220): split
on `'\n'`, run the accumulator loop, join each section's lines with
`'\n'`, and drop whitespace-only sections. -/
def _split_by_sections (content : Str) : List Str :=
  ((sbsLoop (content.splitOn '\n') []).map (List.intercalate ['\n'])).filter
    (fun sec => !(pyStrip sec).isEmpty)

/-- A sentence-terminating character of the regex class `[.!?]`. -/
def isSentEnd (c : Char) : Bool := c = '.' || c = '!' || c = '?'

/-- Scanner for `re.split(r'[.!?]\s+', section)`: a separator is one
of `.`, `!`, `?` followed by a maximal non-empty whitespace run, and
the separators are removed.  `acc` holds the current segment reversed;
`skip` is true while the whitespace run of the separator just matched
is being consumed (the run is maximal because `skip` stays set only
over whitespace). -/
def reSplitGo : List Char → Str → Bool → List Str
  | [], acc, _ => [acc.reverse]
  | c :: rest, acc, skip =>
    if skip && isPySpace c then
      reSplitGo rest acc true
    else if isSentEnd c && (match rest with | r :: _ => isPySpace r | [] => false) then
      acc.reverse :: reSplitGo rest [] true
    else
      reSplitGo rest (c :: acc) false

/-- `re.split(r'[.!?]\s+', s)` (document_processor.py line 224). -/
def reSplitSent (s : Str) : List Str := reSplitGo s [] false

/-- Document-level metadata extracted from the PDF
(document_processor.py lines 55-60), with the run provenance that
`create_chunks` merges into every chunk (lines 170-172). -/
structure ChunkMetadata where
  title : String
  author : String
  subject : String
  total_pages : ℕ
  source_file : String
  processing_timestamp : String
deriving DecidableEq

/-- The `DocumentChunk` dataclass (document_processor.py lines 17-30).
`metadata` is `none` for the Python empty dict `{}` that
`_split_long_section` leaves before `create_chunks` overwrites it. -/
structure DocumentChunk where
  content : Str
  metadata : Option ChunkMetadata
  page_number : ℕ
  chunk_id : String
  section_type : Option String
  has_images : Bool
  image_descriptions : List Str
deriving DecidableEq

/-- One entry of `images_info` (document_processor.py lines 93-100).
Only `page_number` is inspected by `create_chunks`; the rest is
opaque payload. -/
structure ImageInfo where
  page_number : ℕ
  image_index : ℕ
  width : ℕ
  height : ℕ
  data : String
deriving DecidableEq

/-- The synthesized image description
`f"페이지 {page}에 {count}개의 이미지 포함"`. -/
def imgDesc (page count : ℕ) : Str :=
  ("페이지 " ++ toString page ++ "에 " ++ toString count ++ "개의 이미지 포함").toList

/-- A sub-chunk as built inside `_split_long_section`
(document_processor.py lines 235-243 and 249-257): content is the
stripped buffer, the section type is computed on the unstripped
buffer, metadata is the empty dict and the id is set later. -/
def mkSubChunk (cur : Str) (page : ℕ) (pics : List ImageInfo) : DocumentChunk :=
  { content := pyStrip cur
    metadata := none
    page_number := page
    chunk_id := ""
    section_type := some (identify_section_type cur)
    has_images := 0 < pics.length
    image_descriptions := if 0 < pics.length then [imgDesc page pics.length] else [] }

/-- The greedy sentence-accumulation loop of `_split_long_section`
(document_processor.py lines 228-258): before adding a sentence test
whether `current + sentence + ". "` stays within the token budget; on
failure flush the non-empty buffer and restart the buffer from the
current sentence; flush the final non-empty buffer. -/
def slsLoop (tok : Str → ℕ) (page : ℕ) (pics : List ImageInfo) :
    List Str → Str → List DocumentChunk
  | [], cur => if cur.isEmpty then [] else [mkSubChunk cur page pics]
  | s :: rest, cur =>
    if tok (cur ++ s ++ ". ".toList) ≤ MAX_TOKENS_PER_CHUNK then
      slsLoop tok page pics rest (cur ++ s ++ ". ".toList)
    else if cur.isEmpty then
      slsLoop tok page pics rest (s ++ ". ".toList)
    else
      mkSubChunk cur page pics :: slsLoop tok page pics rest (s ++ ". ".toList)

/-- document_processor.py, `_split_long_section` (lines 222-260). -/
def _split_long_section (tok : Str → ℕ) (sec : Str) (page : ℕ)
    (pics : List ImageInfo) : List DocumentChunk :=
  slsLoop tok page pics (reSplitSent sec) []

/-- A page entry of `markdown_content`: PyMuPDF4LLM returns either a
plain string per page or a structured dict; for a dict the code reads
the `text` key, falls back to `content`, and finally to
`str(page_content)` (document_processor.py lines 146-150). -/
inductive PageIn where
  | txt (s : Str)
  | obj (text : Option Str) (content : Option Str) (strRepr : Str)
deriving DecidableEq

/-- The page-content coercion
`page_content.get('text', '') or page_content.get('content', '') or str(page_content)`
(Python `or` takes the first non-empty string). -/
def coerceContent : PageIn → Str
  | .txt s => s
  | .obj t c r =>
    let t0 := t.getD []
    if !t0.isEmpty then t0
    else
      let c0 := c.getD []
      if !c0.isEmpty then c0 else r

/-- `markdown_content` is a list of page entries when
`page_chunks=True`, or a single string split on the page separator
`'\n---\n'` (document_processor.py lines 134-139). -/
inductive MarkdownContent where
  | pages (ps : List PageIn)
  | single (s : String)
deriving DecidableEq

/-- The per-page texts `create_chunks` iterates over. -/
def pageTexts : MarkdownContent → List Str
  | .pages ps => ps.map coerceContent
  | .single s => (s.splitOn "\n---\n").map String.toList

/-- Document metadata dict (document_processor.py lines 55-60). -/
structure DocMetadata where
  title : String
  author : String
  subject : String
  total_pages : ℕ
deriving DecidableEq

/-- The `content` dict handed to `create_chunks` by
`process_document` (document_processor.py lines 262-275). -/
structure ExtractedContent where
  markdown_content : MarkdownContent
  metadata : DocMetadata
  images_info : List ImageInfo
  source_file : String
  timestamp : String
deriving DecidableEq

/-- The merged per-chunk metadata dict
`{**metadata, 'source_file': ..., 'processing_timestamp': ...}`. -/
def mkChunkMetadata (md : DocMetadata) (src ts : String) : ChunkMetadata :=
  { title := md.title, author := md.author, subject := md.subject
    total_pages := md.total_pages, source_file := src, processing_timestamp := ts }

/-- The chunk identifier `f"chunk_{chunk_id}"`. -/
def chunkIdStr (i : ℕ) : String := "chunk_" ++ toString i

/-- A small-enough section emitted as one chunk (document_processor.py
lines 167-179). -/
def mkMainChunk (md : DocMetadata) (src ts : String) (sec : Str) (page : ℕ)
    (pics : List ImageInfo) (i : ℕ) : DocumentChunk :=
  { content := sec
    metadata := some (mkChunkMetadata md src ts)
    page_number := page
    chunk_id := chunkIdStr i
    section_type := some (identify_section_type sec)
    has_images := 0 < pics.length
    image_descriptions := if 0 < pics.length then [imgDesc page pics.length] else [] }

/-- The loop assigning sequential ids and the merged metadata to the
sub-chunks of an oversized section (document_processor.py lines
185-193). -/
def assignSubChunks (md : DocMetadata) (src ts : String) :
    ℕ → List DocumentChunk → List DocumentChunk
  | _, [] => []
  | i, c :: cs =>
    { c with chunk_id := chunkIdStr i, metadata := some (mkChunkMetadata md src ts) } ::
      assignSubChunks md src ts (i + 1) cs

/-- The per-section loop of `create_chunks` (document_processor.py
lines 161-193), threading the document-wide chunk counter. -/
def processSections (tok : Str → ℕ) (md : DocMetadata) (src ts : String)
    (page : ℕ) (pics : List ImageInfo) :
    List Str → ℕ → List DocumentChunk × ℕ
  | [], i => ([], i)
  | sec :: rest, i =>
    if tok sec ≤ MAX_TOKENS_PER_CHUNK then
      (mkMainChunk md src ts sec page pics i ::
         (processSections tok md src ts page pics rest (i + 1)).1,
       (processSections tok md src ts page pics rest (i + 1)).2)
    else
      (assignSubChunks md src ts i (_split_long_section tok sec page pics) ++
         (processSections tok md src ts page pics rest
           (i + (_split_long_section tok sec page pics).length)).1,
       (processSections tok md src ts page pics rest
         (i + (_split_long_section tok sec page pics).length)).2)

/-- The per-page loop of `create_chunks` (document_processor.py lines
144-193): pages are enumerated 0-based (`pidx`), whitespace-only pages
are skipped (the page index still advances), page images are selected
by 1-based page number, and the chunk counter `i` is never reset. -/
def processPages (tok : Str → ℕ) (md : DocMetadata) (src ts : String)
    (imgs : List ImageInfo) :
    List Str → ℕ → ℕ → List DocumentChunk × ℕ
  | [], _, i => ([], i)
  | ptext :: rest, pidx, i =>
    if (pyStrip ptext).isEmpty then
      processPages tok md src ts imgs rest (pidx + 1) i
    else
      ((processSections tok md src ts (pidx + 1)
          (imgs.filter (fun im => im.page_number = pidx + 1))
          (_split_by_sections ptext) i).1 ++
         (processPages tok md src ts imgs rest (pidx + 1)
           (processSections tok md src ts (pidx + 1)
             (imgs.filter (fun im => im.page_number = pidx + 1))
             (_split_by_sections ptext) i).2).1,
       (processPages tok md src ts imgs rest (pidx + 1)
         (processSections tok md src ts (pidx + 1)
           (imgs.filter (fun im => im.page_number = pidx + 1))
           (_split_by_sections ptext) i).2).2)

/-- document_processor.py, `create_chunks` (lines 125-196). -/
def create_chunks (tok : Str → ℕ) (c : ExtractedContent) : List DocumentChunk :=
  (processPages tok c.metadata c.source_file c.timestamp c.images_info
    (pageTexts c.markdown_content) 0 0).1

/-- All sections the document yields: the sections of every page whose
coerced text is not whitespace-only, in page order.  This is exactly
the section sequence `create_chunks` walks. -/
def docSections (c : ExtractedContent) : List Str :=
  ((pageTexts c.markdown_content).filter (fun t => !(pyStrip t).isEmpty)).flatMap
    _split_by_sections

/-!
embedding_service.py — `BedrockEmbeddingService`.  The remote model
invocation is an oracle `invoke : Str → Except String (List ℚ)`; an
`error` value is an exception raised by the call.
-/

/-- A Python exception escaping a function. -/
inductive PyErr where
  | valueError (msg : String)
deriving DecidableEq

/-- Python `str.split()` with no argument: split on whitespace runs,
dropping empty pieces. -/
def pySplitWs (s : Str) : List Str :=
  (s.splitOnP isPySpace).filter (fun p => !p.isEmpty)

/-- embedding_service.py, `_preprocess_text` (lines 115-129):
whitespace-only input becomes the empty string; text longer than
30000 characters is truncated with a `"..."` marker; internal
whitespace runs are collapsed to single spaces. -/
def _preprocess_text (t : Str) : Str :=
  if (pyStrip t).isEmpty then []
  else
    let t2 := if 30000 < t.length then t.take 30000 ++ "...".toList else t
    List.intercalate [' '] (pySplitWs t2)

/-- embedding_service.py, `create_embedding` (lines 52-87): preprocess,
invoke the model, and raise `ValueError` on an empty embedding; any
exception from the call itself is re-raised. -/
def create_embedding (invoke : Str → Except String (List ℚ)) (t : Str) :
    Except String (List ℚ) :=
  match invoke (_preprocess_text t) with
  | .error e => .error e
  | .ok emb => if emb.isEmpty then .error "임베딩 생성 실패: 빈 응답" else .ok emb

/-- The per-text recovery of `create_embeddings_batch` (lines
100-107): a failed embedding becomes the all-zero 1024-vector. -/
def embedOrZero (invoke : Str → Except String (List ℚ)) (t : Str) : List ℚ :=
  match create_embedding invoke t with
  | .ok emb => emb
  | .error _ => List.replicate 1024 0

/-- Python `range(start, stop, step)` for a positive step. -/
def rangeStep (start stop step : ℕ) : List ℕ :=
  if _h : 0 < step ∧ start < stop then
    start :: rangeStep (start + step) stop step
  else
    []
termination_by stop - start
decreasing_by omega

/-- Python `range(0, stop, step)` with an `int` step: a zero step
raises `ValueError`, a negative step gives the empty range (the stop
is never negative here). -/
def pyRangeZero (stop : ℕ) (step : ℤ) : Except PyErr (List ℕ) :=
  if step = 0 then .error (.valueError "range() arg 3 must not be zero")
  else if step < 0 then .ok []
  else .ok (rangeStep 0 stop step.toNat)

/-- embedding_service.py, `create_embeddings_batch` (lines 89-113):
walk the batches `texts[i:i+batch_size]` for `i` in
`range(0, len(texts), batch_size)`, embedding each text and
substituting a zero vector on failure; the `range` call itself is
outside every `try` block, so its `ValueError` propagates. -/
def create_embeddings_batch (invoke : Str → Except String (List ℚ))
    (texts : List Str) (batch_size : ℤ) : Except PyErr (List (List ℚ)) :=
  match pyRangeZero texts.length batch_size with
  | .error e => .error e
  | .ok idxs =>
    .ok (idxs.flatMap (fun i =>
      ((texts.drop i).take batch_size.toNat).map (embedOrZero invoke)))

/-!
vector_store.py — `OpenSearchVectorStore.add_documents`.  The bulk
endpoint is an oracle from a bulk body to a bulk response.
-/

/-- The document payload indexed for one chunk (vector_store.py lines
158-167). -/
structure IndexedDoc where
  content : Str
  embedding : List ℚ
  metadata : Option ChunkMetadata
  page_number : ℕ
  chunk_id : String
  section_type : Option String
  has_images : Bool
  image_descriptions : List Str
deriving DecidableEq

/-- One line of a bulk request body: the action line carrying the
index name and the external document id, or a document line. -/
inductive BulkAction where
  | cmd (indexName : String) (docId : String)
  | doc (d : IndexedDoc)
deriving DecidableEq

/-- One item of a bulk response.  `index = none` models a response
item without an `'index'` key; `index = some st` carries
`item['index'].get('status')`. -/
structure BulkItem where
  index : Option (Option ℕ)
deriving DecidableEq

/-- A bulk response: the `errors` flag and the per-item results. -/
structure BulkResponse where
  errors : Bool
  items : List BulkItem
deriving DecidableEq

/-- vector_store.py lines 174-181: an item counts as a success unless
it has an `'index'` key whose status is not 200 or 201. -/
def bulkItemOk (it : BulkItem) : Bool :=
  match it.index with
  | none => true
  | some st => st = some 200 || st = some 201

/-- The bulk body for one batch: an action line then a document line
per (chunk, embedding) pair (vector_store.py lines 146-168). -/
def bulkBodyOf (indexName : String) (pairs : List (DocumentChunk × List ℚ)) :
    List BulkAction :=
  pairs.flatMap (fun p =>
    [BulkAction.cmd indexName p.1.chunk_id,
     BulkAction.doc
       { content := p.1.content, embedding := p.2, metadata := p.1.metadata
         page_number := p.1.page_number, chunk_id := p.1.chunk_id
         section_type := p.1.section_type, has_images := p.1.has_images
         image_descriptions := p.1.image_descriptions }])

/-- The observable outcome of one `add_documents` call: every bulk
body sent over the network, whether the index refresh was issued,
whether the internal `ValueError` was raised (and swallowed by the
function's own `except` into a `False` return), and the returned
boolean. -/
structure AddDocsOutcome where
  bulkBodies : List (List BulkAction)
  refreshed : Bool
  valueErrorRaised : Bool
  result : Bool
deriving DecidableEq

/-- vector_store.py, `add_documents` (lines 129-193): a length
mismatch raises `ValueError` before any network call, caught by the
function's own handler into a `False` return; otherwise the chunks
are upserted in batches of 100 keyed by `chunk_id`, per-batch
successes are counted from the bulk response, the index is refreshed,
and the call reports success iff at least one document succeeded. -/
def add_documents (bulk : List BulkAction → BulkResponse) (indexName : String)
    (chunks : List DocumentChunk) (embeddings : List (List ℚ)) : AddDocsOutcome :=
  if chunks.length ≠ embeddings.length then
    { bulkBodies := [], refreshed := false, valueErrorRaised := true, result := false }
  else
    let step := fun (acc : List (List BulkAction) × ℕ) (i : ℕ) =>
      let batch_chunks := (chunks.drop i).take 100
      let batch_embeddings := (embeddings.drop i).take 100
      let body := bulkBodyOf indexName (batch_chunks.zip batch_embeddings)
      let resp := bulk body
      let add := if resp.errors then (resp.items.filter bulkItemOk).length
                 else batch_chunks.length
      (acc.1 ++ [body], acc.2 + add)
    let r := (rangeStep 0 chunks.length 100).foldl step ([], 0)
    { bulkBodies := r.1, refreshed := true, valueErrorRaised := false,
      result := 0 < r.2 }

/-!
rag_system.py — `RAGSystem`.  The three remote calls reachable from
`query` are oracles: the query embedding, the two search modes of the
vector store, and the chat-model invocation.  Wall-clock readings are
opaque parameters.
-/

/-- A search hit as parsed by `OpenSearchVectorStore.search` /
`hybrid_search` (vector_store.py lines 246-257). -/
structure SearchResult where
  score : ℚ
  content : String
  metadata : Option ChunkMetadata
  page_number : ℕ
  chunk_id : String
  section_type : String
  has_images : Bool
  image_descriptions : List String
deriving DecidableEq

/-- The remote collaborators of one `RAGSystem.query` call. -/
structure RagOracles where
  embed : String → Except String (List ℚ)
  vecSearch : List ℚ → ℕ → Except String (List SearchResult)
  hybSearch : String → List ℚ → ℕ → Except String (List SearchResult)
  llm : String → Except String String

/-- rag_system.py, `search` (lines 118-144): embed the query (an empty
embedding short-circuits to `[]`), dispatch on the search type
(unsupported types give `[]`), and catch every exception into `[]`. -/
def ragSearch (O : RagOracles) (query : String) (k : ℕ) (search_type : String) :
    List SearchResult :=
  match O.embed query with
  | .error _ => []
  | .ok emb =>
    if emb.isEmpty then []
    else if search_type = "vector" then
      match O.vecSearch emb k with
      | .ok rs => rs
      | .error _ => []
    else if search_type = "hybrid" then
      match O.hybSearch query emb k with
      | .ok rs => rs
      | .error _ => []
    else []

/-- One page-annotated context part `f"{content} (페이지 {page})"`
(rag_system.py lines 158-161). -/
def annotPart (r : SearchResult) : String :=
  r.content ++ " (페이지 " ++ toString r.page_number ++ ")"

/-- The bounded context builder of `generate_answer` (rag_system.py
lines 154-167): walk the results in rank order, stop at the first
part whose addition would push the accumulated length over
`max_context_length`, never truncating a part. -/
def buildParts : List SearchResult → ℕ → ℕ → List String
  | [], _, _ => []
  | r :: rest, maxLen, curLen =>
    if maxLen < curLen + (annotPart r).length then []
    else annotPart r :: buildParts rest maxLen (curLen + (annotPart r).length)

/-- The instruction prompt of `generate_answer` (rag_system.py lines
172-185). -/
def mkPrompt (context query : String) : String :=
  "다음 문서 내용을 바탕으로 질문에 답변해주세요.\n\n문서 내용:\n" ++ context ++
    "\n\n질문: " ++ query ++
    "\n\n답변 시 다음 사항을 지켜주세요:\n1. 문서 내용에 기반하여 정확하게 답변하세요\n2. 답변 근거가 되는 페이지 번호를 포함하세요\n3. 문서에 없는 내용은 추측하지 마세요\n4. 한국어로 자연스럽게 답변하세요\n\n답변:"

/-- The fixed no-result answer `"관련 정보를 찾을 수 없습니다."`. -/
def noInfoMsg : String := "관련 정보를 찾을 수 없습니다."

/-- rag_system.py, `generate_answer` (lines 146-214): empty results
give the fixed no-result answer; otherwise build the bounded context,
invoke the chat model once, and catch any exception into an answer
string carrying the error detail. -/
def generate_answer (O : RagOracles) (query : String)
    (search_results : List SearchResult) (max_context_length : ℕ) : String :=
  if search_results.isEmpty then noInfoMsg
  else
    let context := String.intercalate "\n\n" (buildParts search_results max_context_length 0)
    match O.llm (mkPrompt context query) with
    | .ok answer => answer
    | .error e => "답변 생성 중 오류가 발생했습니다: " ++ e

/-- A display source of the final response (rag_system.py lines
238-244): content truncated to 200 characters. -/
structure SourceInfo where
  content : String
  page_number : ℕ
  score : ℚ
  section_type : String
  has_images : Bool
deriving DecidableEq

/-- rag_system.py lines 238-245. -/
def mkSource (r : SearchResult) : SourceInfo :=
  { content := if 200 < r.content.length then r.content.take 200 ++ "..." else r.content
    page_number := r.page_number, score := r.score
    section_type := r.section_type, has_images := r.has_images }

/-- The response dict of `RAGSystem.query`.  The Python value is a
dict whose key set differs between the three return sites, so each
key that is not always present is an `Option` (`none` = key absent;
reading an absent key in Python raises `KeyError`). -/
structure QueryResponse where
  question : String
  answer : String
  sources : List SourceInfo
  search_time : ℚ
  search_type : Option String
  results_count : Option ℕ
  error : Option String
deriving DecidableEq

/-- The no-result response of `query` (rag_system.py lines 225-230):
only `question`, `answer`, `sources` and `search_time` are present. -/
def noResultsResponse (question : String) (elapsed : ℚ) : QueryResponse :=
  { question := question, answer := noInfoMsg, sources := [], search_time := elapsed
    search_type := none, results_count := none, error := none }

/-- The top-level exception response of `query` (rag_system.py lines
260-266).  Within this model every stage reachable from `query`
already absorbs its own exceptions (`search` and `generate_answer`
catch everything), so no modelled failure reaches this builder. -/
def errorResponse (question e : String) : QueryResponse :=
  { question := question, answer := "오류가 발생했습니다: " ++ e, sources := []
    search_time := 0, search_type := none, results_count := none, error := some e }

/-- rag_system.py, `query` (lines 216-266).  `elapsedEmpty` is the
wall-clock reading taken when the search comes back empty,
`elapsedTotal` the one taken after answer generation. -/
def ragQuery (O : RagOracles) (question : String) (k : ℕ) (search_type : String)
    (elapsedEmpty elapsedTotal : ℚ) : QueryResponse :=
  let search_results := ragSearch O question k search_type
  if search_results.isEmpty then
    noResultsResponse question elapsedEmpty
  else
    { question := question
      answer := generate_answer O question search_results 4000
      sources := search_results.map mkSource
      search_time := elapsedTotal
      search_type := some search_type
      results_count := some search_results.length
      error := none }

/-!
Spec-side definitions and concrete instances used by the theorems.
-/

/-- Modelled from the spec (§4.1 Section Splitter), as a comparison
point for `_split_by_sections`: scan the lines; every heading line
starts a new section, all lines before the first heading form one
implicit leading section, and consecutive headings each open their own
section.  Each group is the group's first line followed by the
non-heading lines after it. -/
def sectionGroups : List Str → List (List Str)
  | [] => []
  | l :: rest =>
    (l :: rest.takeWhile (fun x => !isHeadingLine x)) ::
      sectionGroups (rest.dropWhile (fun x => !isHeadingLine x))
termination_by ls => ls.length
decreasing_by
  simp only [List.length_cons]
  exact Nat.lt_succ_of_le (List.dropWhile_suffix _).length_le

/-- Modelled from the spec (§4.1): the heading-delimited sections,
joined back with newlines, whitespace-only sections dropped, order
preserved. -/
def sectionsSpec (content : Str) : List Str :=
  ((sectionGroups (content.splitOn '\n')).map (List.intercalate ['\n'])).filter
    (fun sec => !(pyStrip sec).isEmpty)

/-- Claim C1's invariant, as a named predicate: every chunk of a run
fits the token budget, except a chunk that is a single sentence-like
unit of one of the document's sections (with the `". "` the
accumulator appends, then stripped) which alone exceeds the budget. -/
def chunkTokenInvariant (tok : Str → ℕ) (c : ExtractedContent) : Prop :=
  ∀ ch ∈ create_chunks tok c,
    tok ch.content ≤ MAX_TOKENS_PER_CHUNK ∨
    ∃ sec ∈ docSections c, ∃ s ∈ reSplitSent sec,
      ch.content = pyStrip (s ++ ". ".toList) ∧
      MAX_TOKENS_PER_CHUNK < tok (s ++ ". ".toList)

/-- A token counter that makes every string fit the budget (used to
drive `_split_long_section` down its accumulate-everything path). -/
def tokZero : Str → ℕ := fun _ => 0

/-- A concrete extracted document for witnesses: one page, one
heading, one body line. -/
def demoDoc : ExtractedContent :=
  { markdown_content := .pages [.txt "# 주의\n브레이크를 밟으세요.".toList]
    metadata := { title := "매뉴얼", author := "", subject := "", total_pages := 1 }
    images_info := []
    source_file := "./crob_santafe.pdf"
    timestamp := "2026-10-12T00:00:00" }

/-- A concrete chunk for the `add_documents` witness. -/
def demoChunk : DocumentChunk :=
  { content := "브레이크".toList, metadata := none, page_number := 1
    chunk_id := "chunk_0", section_type := some "general", has_images := false
    image_descriptions := [] }

/-- A bulk oracle answering every request with a clean response. -/
def demoBulk : List BulkAction → BulkResponse := fun _ => { errors := false, items := [] }

/-- An embedding invocation oracle that always succeeds with `[1]`. -/
def invokeOk : Str → Except String (List ℚ) := fun _ => .ok [1]

/-- Oracles over an empty index: embedding succeeds, both search modes
return no hits, the chat model would answer if asked. -/
def emptyIndexO : RagOracles :=
  { embed := fun _ => .ok [1]
    vecSearch := fun _ _ => .ok []
    hybSearch := fun _ _ _ => .ok []
    llm := fun _ => .ok "answer" }

/-- A concrete search hit. -/
def demoHit : SearchResult :=
  { score := 1, content := "브레이크를 밟으세요", metadata := none, page_number := 3
    chunk_id := "chunk_0", section_type := "general", has_images := false
    image_descriptions := [] }

/-- Oracles whose chat-model call raises: embedding and search
succeed with one hit, the model invocation fails. -/
def llmFailO : RagOracles :=
  { embed := fun _ => .ok [1]
    vecSearch := fun _ _ => .ok [demoHit]
    hybSearch := fun _ _ _ => .ok [demoHit]
    llm := fun _ => .error "LLM down" }

/-- A 1192-character content string; its page-annotated part is
exactly 1200 characters long. -/
def bigContent : String := String.mk (List.replicate 1192 'a')

/-- A search hit with the 1192-character content. -/
def bigHit : SearchResult :=
  { score := 1, content := bigContent, metadata := none, page_number := 1
    chunk_id := "chunk_1", section_type := "general", has_images := false
    image_descriptions := [] }

/-- Five identical hits whose annotated parts are 1200 characters
each: the cumulative annotated length first exceeds 4000 at the 4th
hit. -/
def fiveHits : List SearchResult := [bigHit, bigHit, bigHit, bigHit, bigHit]

/-!
Theorems.
-/

/-- An infix survives mapping. -/
theorem infix_map {α β : Type} (f : α → β) {l t : List α} (h : l <:+: t) :
    l.map f <:+: t.map f := by
  obtain ⟨s, u, hsu⟩ := h
  exact ⟨s.map f, u.map f, by rw [← hsu]; simp⟩

/-- Claim C8: `identify_section_type` is total with values in the five
labels, decided by the fixed priority order warning, instruction,
specification, troubleshooting, general; in particular a text
containing both the warning keyword `주의` and the instruction keyword
`사용법` classifies as `warning`. -/
theorem identify_section_type_total_priority (t : Str) :
    identify_section_type t ∈
      (["warning", "instruction", "specification", "troubleshooting", "general"] :
        List String) ∧
    ("주의".toList <:+: t → "사용법".toList <:+: t →
      identify_section_type t = "warning") := by
  constructor
  · unfold identify_section_type
    dsimp only
    split_ifs <;> simp
  · intro h1 _h2
    have hlow : "주의".toList <:+: pyLower t := by
      have := infix_map Char.toLower h1
      simpa [pyLower] using this
    have hcond :
        (["주의".toList, "경고".toList, "위험".toList, "조심".toList].any
          (fun k => pyIn k (pyLower t))) = true := by
      simp only [List.any_eq_true]
      exact ⟨"주의".toList, by simp, by simpa [pyIn] using hlow⟩
    unfold identify_section_type
    dsimp only
    rw [if_pos hcond]

/-- Witness for C8 at a text containing both keyword families. -/
theorem identify_section_type_witness :
    identify_section_type "주의 사용법".toList = "warning" :=
  (identify_section_type_total_priority "주의 사용법".toList).2 (by decide) (by decide)

/-- Claim C3: `add_documents` with mismatched chunk and embedding
counts raises the internal `ValueError` (reported as a `False`
return), with no bulk request and no refresh ever sent. -/
theorem add_documents_mismatch (bulk : List BulkAction → BulkResponse)
    (indexName : String) (chunks : List DocumentChunk) (embeddings : List (List ℚ))
    (h : chunks.length ≠ embeddings.length) :
    (add_documents bulk indexName chunks embeddings).bulkBodies = [] ∧
    (add_documents bulk indexName chunks embeddings).refreshed = false ∧
    (add_documents bulk indexName chunks embeddings).valueErrorRaised = true ∧
    (add_documents bulk indexName chunks embeddings).result = false := by
  simp [add_documents, h]

/-- Witness for C3 at one chunk and zero embeddings. -/
theorem add_documents_mismatch_witness :
    (add_documents demoBulk "demo-index" [demoChunk] []).bulkBodies = [] ∧
    (add_documents demoBulk "demo-index" [demoChunk] []).refreshed = false ∧
    (add_documents demoBulk "demo-index" [demoChunk] []).valueErrorRaised = true ∧
    (add_documents demoBulk "demo-index" [demoChunk] []).result = false :=
  add_documents_mismatch demoBulk "demo-index" [demoChunk] [] (by decide)

/-- Claim C10: sub-chunking an oversized section is not
content-preserving: on `"A!  B? C"` the accumulator emits
`"A. B. C."`, whose `!`, `?` and double-space separators have been
replaced by `". "`, and which is not a substring of the section. -/
theorem split_long_section_not_substring :
    (_split_long_section tokZero "A!  B? C".toList 1 []).map DocumentChunk.content =
      ["A. B. C.".toList] ∧
    ¬ ("A. B. C.".toList <:+: "A!  B? C".toList) := by
  exact ⟨by decide, by decide⟩

/-- Claim C4 (amended): whenever the search stage returns no results,
`query` returns the response whose answer is exactly
`"관련 정보를 찾을 수 없습니다."` and whose sources are empty — a dict
holding only `question`, `answer`, `sources` and `search_time`, so
with no `results_count` key at all. -/
theorem ragQuery_no_results (O : RagOracles) (q : String) (k : ℕ) (st : String)
    (e1 e2 : ℚ) (h : ragSearch O q k st = []) :
    ragQuery O q k st e1 e2 = noResultsResponse q e1 := by
  simp [ragQuery, h]

/-- Witness for C4 against an empty index. -/
theorem ragQuery_no_results_witness :
    ragQuery emptyIndexO "없는 질문" 3 "vector" 0 0 = noResultsResponse "없는 질문" 0 :=
  ragQuery_no_results emptyIndexO "없는 질문" 3 "vector" 0 0 (by decide)

/-- Counterexample for C4 as stated: on an empty index the answer and
empty source list are as claimed, but the response carries no
`results_count` key (modelled `none`), so the claimed
`results_count = 0` field does not exist. -/
theorem ragQuery_no_results_counterexample :
    (ragQuery emptyIndexO "없는 질문" 3 "vector" 0 0).answer = noInfoMsg ∧
    (ragQuery emptyIndexO "없는 질문" 3 "vector" 0 0).sources = [] ∧
    (ragQuery emptyIndexO "없는 질문" 3 "vector" 0 0).results_count = none ∧
    (ragQuery emptyIndexO "없는 질문" 3 "vector" 0 0).results_count ≠ some 0 := by
  refine ⟨by decide, by decide, by decide, by decide⟩

/-- Claim C5 (amended): `query` never propagates an exception, but
the shape of the returned response depends on the failing stage: an
exception from the query embedding or from either search mode is
absorbed inside `search` into an empty result list and yields the
fixed no-result response (no error field), while an exception from
the chat-model call is absorbed inside `generate_answer` into an
answer string carrying the error detail, with sources, counts and
elapsed time still assembled normally and no error field.  The
top-level error response of `query` (empty sources, zero search time,
explicit error field) is not reached by any of these stages. -/
theorem ragQuery_absorbs_exceptions (O : RagOracles) (q : String) (k : ℕ)
    (e1 e2 : ℚ) :
    (∀ st e, O.embed q = .error e →
      ragQuery O q k st e1 e2 = noResultsResponse q e1) ∧
    (∀ e emb, O.embed q = .ok emb → emb.isEmpty = false →
      O.vecSearch emb k = .error e →
      ragQuery O q k "vector" e1 e2 = noResultsResponse q e1) ∧
    (∀ e emb, O.embed q = .ok emb → emb.isEmpty = false →
      O.hybSearch q emb k = .error e →
      ragQuery O q k "hybrid" e1 e2 = noResultsResponse q e1) ∧
    (∀ e emb rs, O.embed q = .ok emb → emb.isEmpty = false →
      O.vecSearch emb k = .ok rs → rs.isEmpty = false →
      O.llm (mkPrompt (String.intercalate "\n\n" (buildParts rs 4000 0)) q) = .error e →
      ragQuery O q k "vector" e1 e2 =
        { question := q
          answer := "답변 생성 중 오류가 발생했습니다: " ++ e
          sources := rs.map mkSource
          search_time := e2
          search_type := some "vector"
          results_count := some rs.length
          error := none }) := by
  refine ⟨?_, ?_, ?_, ?_⟩
  · intro st e h
    simp [ragQuery, ragSearch, h]
  · intro e emb hemb hne hvec
    simp [ragQuery, ragSearch, hemb, hne, hvec]
  · intro e emb hhyb hne hvec
    simp [ragQuery, ragSearch, hhyb, hne, hvec]
  · intro e emb rs hemb hne hvec hrs hllm
    simp [ragQuery, ragSearch, generate_answer, hemb, hne, hvec, hrs, hllm]

/-- Witness for C5: a failing chat-model call with one search hit. -/
theorem ragQuery_absorbs_exceptions_witness :
    ragQuery llmFailO "질문" 5 "vector" 1 5 =
      { question := "질문"
        answer := "답변 생성 중 오류가 발생했습니다: LLM down"
        sources := [mkSource demoHit]
        search_time := 5
        search_type := some "vector"
        results_count := some 1
        error := none } := by
  have h := (ragQuery_absorbs_exceptions llmFailO "질문" 5 1 5).2.2.2
    "LLM down" [1] [demoHit] rfl rfl rfl rfl rfl
  simpa using h

/-- Counterexample for C5 as stated: an exception raised at the
answer-generation stage yields a response with non-empty sources, no
error field and a non-zero search time, not the claimed
empty-sources/zero-time/error-field response. -/
theorem ragQuery_llm_error_counterexample :
    (ragQuery llmFailO "질문" 5 "vector" 1 5).answer =
      "답변 생성 중 오류가 발생했습니다: LLM down" ∧
    (ragQuery llmFailO "질문" 5 "vector" 1 5).sources ≠ [] ∧
    (ragQuery llmFailO "질문" 5 "vector" 1 5).error = none ∧
    (ragQuery llmFailO "질문" 5 "vector" 1 5).search_time ≠ 0 := by
  refine ⟨by decide, by decide, by decide, by decide⟩

/-- Walking `range(s, l.length, bs)` and concatenating the mapped
slices `l[i:i+bs]` reproduces `(l.drop s).map f`. -/
theorem rangeStep_flatMap_map {α β : Type} (f : α → β) (bs : ℕ) (hbs : 0 < bs)
    (l : List α) (s : ℕ) :
    ((rangeStep s l.length bs).flatMap (fun i => ((l.drop i).take bs).map f)) =
      (l.drop s).map f := by
  by_cases h : s < l.length
  · rw [rangeStep, dif_pos ⟨hbs, h⟩]
    simp only [List.flatMap_cons]
    rw [rangeStep_flatMap_map f bs hbs l (s + bs), ← List.map_append]
    congr 1
    rw [← List.drop_drop]
    exact List.take_append_drop bs (l.drop s)
  · rw [rangeStep, dif_neg (fun hc => h hc.2)]
    simp [List.drop_eq_nil_of_le (Nat.le_of_not_lt h)]
termination_by l.length - s
decreasing_by omega

/-- Claim C6 (amended): for every positive batch size,
`create_embeddings_batch` returns exactly one vector per input text in
input order, a failing per-text embedding being replaced by the
all-zero 1024-vector without aborting the batch. -/
theorem create_embeddings_batch_ok (invoke : Str → Except String (List ℚ))
    (texts : List Str) (bs : ℤ) (h : 0 < bs) :
    create_embeddings_batch invoke texts bs = .ok (texts.map (embedOrZero invoke)) := by
  have hbs0 : ¬ bs = 0 := by omega
  have hbsn : ¬ bs < 0 := by omega
  simp only [create_embeddings_batch, pyRangeZero, if_neg hbs0, if_neg hbsn]
  have hmain := rangeStep_flatMap_map (embedOrZero invoke) bs.toNat (by omega) texts 0
  simpa using hmain

/-- Witness for C6 with batch size 1. -/
theorem create_embeddings_batch_ok_witness :
    (0 : ℤ) < 1 ∧
    create_embeddings_batch invokeOk ["a".toList] 1 = .ok [[(1 : ℚ)]] := by
  refine ⟨by decide, ?_⟩
  rw [create_embeddings_batch_ok invokeOk ["a".toList] 1 (by decide)]
  rfl

/-- Counterexample for C6 as stated: with batch size 0 the `range`
call raises `ValueError` outside every `try` block, so
`create_embeddings_batch` returns no vectors at all. -/
theorem create_embeddings_batch_zero_step :
    create_embeddings_batch invokeOk ["a".toList] 0 =
      .error (.valueError "range() arg 3 must not be zero") := by
  rfl

/-- The context builder only ever takes a prefix of the annotated
results, in ranking order. -/
theorem buildParts_isPrefix (maxLen : ℕ) :
    ∀ (results : List SearchResult) (curLen : ℕ),
      buildParts results maxLen curLen <+: results.map annotPart := by
  intro results
  induction results with
  | nil => intro curLen; simp [buildParts]
  | cons r rest ih =>
    intro curLen
    simp only [buildParts, List.map_cons]
    split
    · exact List.nil_prefix
    · exact List.cons_prefix_cons.mpr ⟨rfl, ih _⟩

/-- The accumulated character length of the kept parts never exceeds
the budget. -/
theorem buildParts_budget (maxLen : ℕ) :
    ∀ (results : List SearchResult) (curLen : ℕ), curLen ≤ maxLen →
      curLen + ((buildParts results maxLen curLen).map String.length).sum ≤ maxLen := by
  intro results
  induction results with
  | nil => intro c hc; simpa [buildParts] using hc
  | cons r rest ih =>
    intro c hc
    simp only [buildParts]
    split
    · simpa using hc
    · next h =>
      have h2 : c + (annotPart r).length ≤ maxLen := Nat.le_of_not_lt h
      have h3 := ih (c + (annotPart r).length) h2
      simp only [List.map_cons, List.sum_cons]
      omega

/-- If the builder stopped before exhausting the results, the very
next result is the first whose addition would exceed the budget. -/
theorem buildParts_stop (maxLen : ℕ) :
    ∀ (results : List SearchResult) (curLen : ℕ),
      (buildParts results maxLen curLen).length < results.length →
      ∃ r, (results.drop (buildParts results maxLen curLen).length).head? = some r ∧
        maxLen < curLen + ((buildParts results maxLen curLen).map String.length).sum +
          (annotPart r).length := by
  intro results
  induction results with
  | nil => intro c h; simp [buildParts] at h
  | cons r rest ih =>
    intro c h
    by_cases hstop : maxLen < c + (annotPart r).length
    · refine ⟨r, ?_, ?_⟩
      · simp [buildParts, hstop]
      · simp [buildParts, hstop]
    · rw [buildParts, if_neg hstop] at h ⊢
      have h2 : (buildParts rest maxLen (c + (annotPart r).length)).length < rest.length := by
        simpa using h
      obtain ⟨r0, hr0, hlt⟩ := ih (c + (annotPart r).length) h2
      refine ⟨r0, ?_, ?_⟩
      · simpa [List.drop_succ_cons] using hr0
      · simp only [List.map_cons, List.sum_cons]
        omega

set_option maxRecDepth 40000 in
/-- Claim C7: the context builder of `generate_answer` keeps whole
page-annotated parts in ranking order (a prefix of the annotated
results, never truncated), its accumulated character length stays
within the budget, it stops exactly at the first result whose
addition would exceed the budget, and on five results whose annotated
parts are 1200 characters each with budget 4000 it keeps exactly the
first three. -/
theorem generate_answer_context_bound :
    (∀ (results : List SearchResult) (maxLen : ℕ),
      buildParts results maxLen 0 <+: results.map annotPart ∧
      ((buildParts results maxLen 0).map String.length).sum ≤ maxLen ∧
      ((buildParts results maxLen 0).length < results.length →
        ∃ r, (results.drop (buildParts results maxLen 0).length).head? = some r ∧
          maxLen < ((buildParts results maxLen 0).map String.length).sum +
            (annotPart r).length)) ∧
    buildParts fiveHits 4000 0 = (fiveHits.map annotPart).take 3 := by
  constructor
  · intro results maxLen
    refine ⟨buildParts_isPrefix maxLen results 0, ?_, ?_⟩
    · simpa using buildParts_budget maxLen results 0 (Nat.zero_le _)
    · intro h
      obtain ⟨r, h1, h2⟩ := buildParts_stop maxLen results 0 h
      exact ⟨r, h1, by simpa using h2⟩
  · rfl

set_option maxRecDepth 40000 in
/-- Witness for C7: on the five concrete hits the builder stops
early, and the stopping condition of the theorem is realized. -/
theorem generate_answer_context_bound_witness :
    (buildParts fiveHits 4000 0).length < fiveHits.length ∧
    ∃ r, (fiveHits.drop (buildParts fiveHits 4000 0).length).head? = some r ∧
      4000 < ((buildParts fiveHits 4000 0).map String.length).sum +
        (annotPart r).length := by
  have hlen : (buildParts fiveHits 4000 0).length < fiveHits.length := by decide
  exact ⟨hlen, (generate_answer_context_bound.1 fiveHits 4000).2.2 hlen⟩

/-- The accumulator loop of `_split_by_sections` computes the
heading-delimited groups of the spec, once a current section has been
opened. -/
theorem sbsLoop_eq_sectionGroups :
    ∀ (lines : List Str) (cur : List Str), cur ≠ [] →
      sbsLoop lines cur =
        (cur ++ lines.takeWhile (fun x => !isHeadingLine x)) ::
          sectionGroups (lines.dropWhile (fun x => !isHeadingLine x)) := by
  intro lines
  induction lines with
  | nil =>
    intro cur hc
    simp [sbsLoop, sectionGroups, List.isEmpty_iff, hc]
  | cons l rest ih =>
    intro cur hc
    by_cases hl : isHeadingLine l
    · rw [sbsLoop]
      simp only [hl, if_true, List.isEmpty_iff, if_neg hc]
      rw [ih [l] (by simp)]
      rw [List.takeWhile_cons, List.dropWhile_cons]
      simp only [hl, Bool.not_true, Bool.false_eq_true, if_false]
      rw [sectionGroups]
      simp
    · rw [sbsLoop]
      simp only [hl, if_false]
      rw [ih (cur ++ [l]) (by simp)]
      rw [List.takeWhile_cons, List.dropWhile_cons]
      simp [hl, List.append_assoc]

/-- Claim C9: `_split_by_sections` equals the spec's section
splitter — lines before the first heading form one implicit leading
section, every heading line opens a new section (consecutive headings
included), whitespace-only sections are dropped, order is
preserved — and every returned section is non-whitespace after
stripping. -/
theorem split_by_sections_spec (content : Str) :
    _split_by_sections content = sectionsSpec content ∧
    ∀ sec ∈ _split_by_sections content, pyStrip sec ≠ [] := by
  have hloop : ∀ lines : List Str, sbsLoop lines [] = sectionGroups lines := by
    intro lines
    cases lines with
    | nil => simp [sbsLoop, sectionGroups]
    | cons l rest =>
      have hstep : sbsLoop (l :: rest) [] = sbsLoop rest [l] := by
        rw [sbsLoop]
        by_cases hl : isHeadingLine l <;> simp [hl]
      rw [hstep, sbsLoop_eq_sectionGroups rest [l] (by simp), sectionGroups]
      simp
  constructor
  · unfold _split_by_sections sectionsSpec
    rw [hloop]
  · intro sec hsec
    unfold _split_by_sections at hsec
    have := (List.mem_filter.mp hsec).2
    simpa [List.isEmpty_iff] using this

/-- Witness for C9: on a concrete page text the splitter returns the
whole text as its single section, and that section is non-whitespace
after stripping. -/
theorem split_by_sections_spec_witness :
    pyStrip "# 주의\n브레이크를 밟으세요.".toList ≠ [] :=
  (split_by_sections_spec "# 주의\n브레이크를 밟으세요.".toList).2
    "# 주의\n브레이크를 밟으세요.".toList (by decide)

/-- The id-assignment loop stamps consecutive ids from its start
index. -/
theorem assignSubChunks_map_ids (md : DocMetadata) (src ts : String) :
    ∀ (cs : List DocumentChunk) (i : ℕ),
      (assignSubChunks md src ts i cs).map DocumentChunk.chunk_id =
        (List.range' i cs.length).map chunkIdStr := by
  intro cs
  induction cs with
  | nil => intro i; simp [assignSubChunks]
  | cons c rest ih =>
    intro i
    simp only [assignSubChunks, List.map_cons, List.length_cons, List.range'_succ]
    rw [ih (i + 1)]

/-- The id-assignment loop preserves the number of chunks. -/
theorem assignSubChunks_length (md : DocMetadata) (src ts : String) :
    ∀ (cs : List DocumentChunk) (i : ℕ),
      (assignSubChunks md src ts i cs).length = cs.length := by
  intro cs
  induction cs with
  | nil => intro i; simp [assignSubChunks]
  | cons c rest ih =>
    intro i
    simp [assignSubChunks, ih (i + 1)]

/-- The section loop returns the counter advanced by exactly the
number of chunks it emitted. -/
theorem processSections_snd (tok : Str → ℕ) (md : DocMetadata) (src ts : String)
    (page : ℕ) (pics : List ImageInfo) :
    ∀ (secs : List Str) (i : ℕ),
      (processSections tok md src ts page pics secs i).2 =
        i + (processSections tok md src ts page pics secs i).1.length := by
  intro secs
  induction secs with
  | nil => intro i; simp [processSections]
  | cons sec rest ih =>
    intro i
    by_cases hsec : tok sec ≤ MAX_TOKENS_PER_CHUNK
    · simp only [processSections, if_pos hsec, List.length_cons]
      rw [ih (i + 1)]
      omega
    · simp only [processSections, if_neg hsec, List.length_append]
      rw [ih (i + (_split_long_section tok sec page pics).length),
        assignSubChunks_length]
      omega

/-- The section loop emits ids `chunkIdStr i, chunkIdStr (i+1), …` in
emission order. -/
theorem processSections_map_ids (tok : Str → ℕ) (md : DocMetadata) (src ts : String)
    (page : ℕ) (pics : List ImageInfo) :
    ∀ (secs : List Str) (i : ℕ),
      (processSections tok md src ts page pics secs i).1.map DocumentChunk.chunk_id =
        (List.range' i (processSections tok md src ts page pics secs i).1.length).map
          chunkIdStr := by
  intro secs
  induction secs with
  | nil => intro i; simp [processSections]
  | cons sec rest ih =>
    intro i
    by_cases hsec : tok sec ≤ MAX_TOKENS_PER_CHUNK
    · simp only [processSections, if_pos hsec, List.map_cons, List.length_cons,
        List.range'_succ]
      rw [ih (i + 1)]
      rfl
    · simp only [processSections, if_neg hsec, List.map_append, List.length_append]
      rw [ih (i + (_split_long_section tok sec page pics).length),
        assignSubChunks_map_ids, assignSubChunks_length, ← List.map_append,
        List.range'_append_1]
      simp [Nat.add_comm]

/-- The page loop returns the counter advanced by exactly the number
of chunks it emitted. -/
theorem processPages_snd (tok : Str → ℕ) (md : DocMetadata) (src ts : String)
    (imgs : List ImageInfo) :
    ∀ (pages : List Str) (pidx i : ℕ),
      (processPages tok md src ts imgs pages pidx i).2 =
        i + (processPages tok md src ts imgs pages pidx i).1.length := by
  intro pages
  induction pages with
  | nil => intro pidx i; simp [processPages]
  | cons pt rest ih =>
    intro pidx i
    by_cases hpt : (pyStrip pt).isEmpty
    · simp only [processPages, if_pos hpt]
      exact ih (pidx + 1) i
    · simp only [processPages, if_neg hpt, List.length_append]
      rw [ih (pidx + 1), processSections_snd]
      omega

/-- The page loop emits ids `chunkIdStr i, chunkIdStr (i+1), …` in
emission order, never resetting the counter across pages. -/
theorem processPages_map_ids (tok : Str → ℕ) (md : DocMetadata) (src ts : String)
    (imgs : List ImageInfo) :
    ∀ (pages : List Str) (pidx i : ℕ),
      (processPages tok md src ts imgs pages pidx i).1.map DocumentChunk.chunk_id =
        (List.range' i (processPages tok md src ts imgs pages pidx i).1.length).map
          chunkIdStr := by
  intro pages
  induction pages with
  | nil => intro pidx i; simp [processPages]
  | cons pt rest ih =>
    intro pidx i
    by_cases hpt : (pyStrip pt).isEmpty
    · simp only [processPages, if_pos hpt]
      exact ih (pidx + 1) i
    · simp only [processPages, if_neg hpt, List.map_append, List.length_append]
      rw [ih (pidx + 1), processSections_map_ids, processSections_snd,
        ← List.map_append, List.range'_append_1]
      simp [Nat.add_comm]

/-- Claim C2: the chunk ids of one `create_chunks` run are exactly
`chunk_0, chunk_1, …` in emission order (page order, then section
order, then sub-chunk order), the counter never being reset; their
numeric suffixes are therefore the consecutive naturals `0, 1, …`,
unique and strictly increasing in emission order. -/
theorem create_chunks_ids (tok : Str → ℕ) (c : ExtractedContent) :
    (create_chunks tok c).map DocumentChunk.chunk_id =
      (List.range (create_chunks tok c).length).map chunkIdStr := by
  unfold create_chunks
  rw [List.range_eq_range']
  exact processPages_map_ids tok c.metadata c.source_file c.timestamp c.images_info
    (pageTexts c.markdown_content) 0 0

/-- Stripping never lengthens a string (so the plain length counter
satisfies the tokenizer hypothesis of claim C1). -/
theorem pyStrip_length_le (s : Str) : (pyStrip s).length ≤ s.length := by
  unfold pyStrip
  have h1 : (s.dropWhile isPySpace).length ≤ s.length :=
    (List.dropWhile_sublist _).length_le
  have h2 : ((s.dropWhile isPySpace).reverse.dropWhile isPySpace).length ≤
      (s.dropWhile isPySpace).reverse.length :=
    (List.dropWhile_sublist _).length_le
  simp only [List.length_reverse] at h2 ⊢
  omega

/-- Invariant of the sentence-accumulation loop: provided the
tokenizer does not grow under stripping, every chunk the loop emits
either fits the token budget or is a single over-budget sentence unit
of the section (with its appended `". "`, stripped). -/
theorem slsLoop_content_bound (tok : Str → ℕ)
    (hstrip : ∀ s, tok (pyStrip s) ≤ tok s) (page : ℕ) (pics : List ImageInfo)
    (S : List Str) :
    ∀ (rest : List Str) (cur : Str), (∀ x ∈ rest, x ∈ S) →
      (cur = [] ∨ tok cur ≤ MAX_TOKENS_PER_CHUNK ∨
        ∃ s ∈ S, cur = s ++ ". ".toList) →
      ∀ ch ∈ slsLoop tok page pics rest cur,
        tok ch.content ≤ MAX_TOKENS_PER_CHUNK ∨
        ∃ s ∈ S, ch.content = pyStrip (s ++ ". ".toList) ∧
          MAX_TOKENS_PER_CHUNK < tok (s ++ ". ".toList) := by
  intro rest
  induction rest with
  | nil =>
    intro cur hmem hQ ch hch
    by_cases hc : cur.isEmpty
    · simp [slsLoop, hc] at hch
    · rw [slsLoop, if_neg (by simp [hc])] at hch
      rw [List.mem_singleton] at hch
      subst hch
      by_cases htok : tok cur ≤ MAX_TOKENS_PER_CHUNK
      · left
        exact le_trans (hstrip cur) htok
      · rcases hQ with rfl | h | ⟨s, hs, rfl⟩
        · simp at hc
        · exact absurd h htok
        · exact Or.inr ⟨s, hs, rfl, Nat.lt_of_not_le htok⟩
  | cons s rest ih =>
    intro cur hmem hQ ch hch
    have hsS : s ∈ S := hmem s (by simp)
    have hrest : ∀ x ∈ rest, x ∈ S := fun x hx => hmem x (by simp [hx])
    by_cases h1 : tok (cur ++ s ++ ". ".toList) ≤ MAX_TOKENS_PER_CHUNK
    · rw [slsLoop, if_pos h1] at hch
      exact ih (cur ++ s ++ ". ".toList) hrest (Or.inr (Or.inl h1)) ch hch
    · rw [slsLoop, if_neg h1] at hch
      by_cases hc : cur.isEmpty
      · rw [if_pos hc] at hch
        exact ih (s ++ ". ".toList) hrest (Or.inr (Or.inr ⟨s, hsS, rfl⟩)) ch hch
      · rw [if_neg (by simp [hc])] at hch
        rcases List.mem_cons.mp hch with hh | hch2
        · subst hh
          by_cases htok : tok cur ≤ MAX_TOKENS_PER_CHUNK
          · left
            exact le_trans (hstrip cur) htok
          · rcases hQ with rfl | h | ⟨s0, hs0, rfl⟩
            · simp at hc
            · exact absurd h htok
            · exact Or.inr ⟨s0, hs0, rfl, Nat.lt_of_not_le htok⟩
        · exact ih (s ++ ". ".toList) hrest (Or.inr (Or.inr ⟨s, hsS, rfl⟩)) ch hch2

/-- Every chunk emitted by `_split_long_section` fits the budget, or
is a single over-budget sentence unit of its section. -/
theorem split_long_section_content_bound (tok : Str → ℕ)
    (hstrip : ∀ s, tok (pyStrip s) ≤ tok s) (page : ℕ) (pics : List ImageInfo)
    (sec : Str) :
    ∀ ch ∈ _split_long_section tok sec page pics,
      tok ch.content ≤ MAX_TOKENS_PER_CHUNK ∨
      ∃ s ∈ reSplitSent sec, ch.content = pyStrip (s ++ ". ".toList) ∧
        MAX_TOKENS_PER_CHUNK < tok (s ++ ". ".toList) :=
  fun ch hch =>
    slsLoop_content_bound tok hstrip page pics (reSplitSent sec) (reSplitSent sec) []
      (fun _ hx => hx) (Or.inl rfl) ch hch

/-- Assigning ids and metadata never changes a chunk's content. -/
theorem assignSubChunks_content (md : DocMetadata) (src ts : String) :
    ∀ (cs : List DocumentChunk) (i : ℕ) (ch : DocumentChunk),
      ch ∈ assignSubChunks md src ts i cs → ∃ c ∈ cs, ch.content = c.content := by
  intro cs
  induction cs with
  | nil => intro i ch hch; simp [assignSubChunks] at hch
  | cons c rest ih =>
    intro i ch hch
    rw [assignSubChunks] at hch
    rcases List.mem_cons.mp hch with hh | hch2
    · exact ⟨c, by simp, by rw [hh]⟩
    · obtain ⟨c0, hc0, hcontent⟩ := ih (i + 1) ch hch2
      exact ⟨c0, by simp [hc0], hcontent⟩

/-- Every chunk emitted by the section loop fits the budget, or is a
single over-budget sentence unit of one of the given sections. -/
theorem processSections_content (tok : Str → ℕ)
    (hstrip : ∀ s, tok (pyStrip s) ≤ tok s) (md : DocMetadata) (src ts : String)
    (page : ℕ) (pics : List ImageInfo) :
    ∀ (secs : List Str) (i : ℕ),
      ∀ ch ∈ (processSections tok md src ts page pics secs i).1,
        tok ch.content ≤ MAX_TOKENS_PER_CHUNK ∨
        ∃ sec ∈ secs, ∃ s ∈ reSplitSent sec,
          ch.content = pyStrip (s ++ ". ".toList) ∧
          MAX_TOKENS_PER_CHUNK < tok (s ++ ". ".toList) := by
  intro secs
  induction secs with
  | nil => intro i ch hch; simp [processSections] at hch
  | cons sec rest ih =>
    intro i ch hch
    by_cases hsec : tok sec ≤ MAX_TOKENS_PER_CHUNK
    · rw [processSections, if_pos hsec] at hch
      rcases List.mem_cons.mp hch with hh | hch2
      · left
        rw [hh]
        exact hsec
      · rcases ih (i + 1) ch hch2 with h | ⟨sec0, hsec0, hrest⟩
        · exact Or.inl h
        · exact Or.inr ⟨sec0, by simp [hsec0], hrest⟩
    · rw [processSections, if_neg hsec] at hch
      rcases List.mem_append.mp hch with hch1 | hch2
      · obtain ⟨c0, hc0, hcontent⟩ := assignSubChunks_content md src ts _ i ch hch1
        rcases split_long_section_content_bound tok hstrip page pics sec c0 hc0 with
          h | ⟨s, hs, hc, hlt⟩
        · left
          rw [hcontent]
          exact h
        · exact Or.inr ⟨sec, by simp, s, hs, by rw [hcontent, hc], hlt⟩
      · rcases ih _ ch hch2 with h | ⟨sec0, hsec0, hrest⟩
        · exact Or.inl h
        · exact Or.inr ⟨sec0, by simp [hsec0], hrest⟩

/-- Every chunk emitted by the page loop fits the budget, or is a
single over-budget sentence unit of a section of one of the
non-skipped pages. -/
theorem processPages_content (tok : Str → ℕ)
    (hstrip : ∀ s, tok (pyStrip s) ≤ tok s) (md : DocMetadata) (src ts : String)
    (imgs : List ImageInfo) :
    ∀ (pages : List Str) (pidx i : ℕ),
      ∀ ch ∈ (processPages tok md src ts imgs pages pidx i).1,
        tok ch.content ≤ MAX_TOKENS_PER_CHUNK ∨
        ∃ pt ∈ pages, (!(pyStrip pt).isEmpty) = true ∧
          ∃ sec ∈ _split_by_sections pt, ∃ s ∈ reSplitSent sec,
            ch.content = pyStrip (s ++ ". ".toList) ∧
            MAX_TOKENS_PER_CHUNK < tok (s ++ ". ".toList) := by
  intro pages
  induction pages with
  | nil => intro pidx i ch hch; simp [processPages] at hch
  | cons pt rest ih =>
    intro pidx i ch hch
    by_cases hpt : (pyStrip pt).isEmpty
    · rw [processPages, if_pos hpt] at hch
      rcases ih (pidx + 1) i ch hch with h | ⟨pt0, hpt0, hrest⟩
      · exact Or.inl h
      · exact Or.inr ⟨pt0, by simp [hpt0], hrest⟩
    · rw [processPages, if_neg hpt] at hch
      rcases List.mem_append.mp hch with hch1 | hch2
      · rcases processSections_content tok hstrip md src ts (pidx + 1)
            (imgs.filter (fun im => im.page_number = pidx + 1))
            (_split_by_sections pt) i ch hch1 with h | ⟨sec, hsec, hrest⟩
        · exact Or.inl h
        · exact Or.inr ⟨pt, by simp, by simp [hpt], sec, hsec, hrest⟩
      · rcases ih (pidx + 1) _ ch hch2 with h | ⟨pt0, hpt0, hrest⟩
        · exact Or.inl h
        · exact Or.inr ⟨pt0, by simp [hpt0], hrest⟩

/-- Claim C1: under any tokenizer that does not grow when a string is
stripped, every chunk emitted by `create_chunks` has token count at
most `MAX_TOKENS_PER_CHUNK` (512), except a chunk whose content is a
single sentence-like unit of one of the document's sections (with the
`". "` the accumulator appends, then stripped) that alone exceeds the
budget and is emitted unsplit. -/
theorem create_chunks_token_bound (tok : Str → ℕ)
    (hstrip : ∀ s, tok (pyStrip s) ≤ tok s) (c : ExtractedContent) :
    chunkTokenInvariant tok c := by
  intro ch hch
  unfold create_chunks at hch
  rcases processPages_content tok hstrip c.metadata c.source_file c.timestamp
      c.images_info (pageTexts c.markdown_content) 0 0 ch hch with
    h | ⟨pt, hpt, hne, sec, hsec, s, hs, hcontent, hlt⟩
  · exact Or.inl h
  · refine Or.inr ⟨sec, ?_, s, hs, hcontent, hlt⟩
    unfold docSections
    rw [List.mem_flatMap]
    exact ⟨pt, List.mem_filter.mpr ⟨hpt, hne⟩, hsec⟩

/-- Witness for C1: the plain length counter satisfies the stripping
hypothesis, instantiated on the concrete demo document. -/
theorem create_chunks_token_bound_witness :
    chunkTokenInvariant List.length demoDoc :=
  create_chunks_token_bound List.length pyStrip_length_le demoDoc

end DemoCar
